import Mathlib

/-!
Verification development for a financial-statement-analysis pipeline.

The program fetches per-company quarterly balance sheets (tables indexed by
line-item name, with one column per reporting period, most recent first),
derives four ratios per period, renders three kinds of charts, and writes a
text report.  We embed the pipeline shallowly:

* numeric cell values are rationals (`ℚ`);
* derived ratio values live in `PVal`, which adds the IEEE-style `inf`,
  `-inf` and `nan` results that the numeric library produces on division by
  zero — the source never guards its divisions, so these values are
  reachable;
* a balance sheet is the rectangular table `BalanceSheet` (row label ↦ list
  of per-period values, plus the list of period labels);
* fallible steps (label lookup raising `KeyError`, positional indexing
  raising `IndexError`) return `Option`/`Except`;
* the charting backend is treated as a black box: a chart is modelled by the
  data series handed to it, and "a file is written" by the presence of that
  data in the result.
-/

/-- Value of a derived (floating-point) quantity: a finite rational, one of
the two infinities, or NaN.  Mirrors the values the numeric library can
produce from the divisions in the source. -/
inductive PVal where
  | fin (q : ℚ)
  | inf
  | negInf
  | nan
deriving DecidableEq

/-- Division of two finite numbers, with the numeric library's behaviour on
a zero denominator: `a / 0` is `inf` for positive `a`, `-inf` for negative
`a`, and `nan` for `0 / 0`. -/
def pdiv (a b : ℚ) : PVal :=
  if b ≠ 0 then .fin (a / b)
  else if 0 < a then .inf
  else if a < 0 then .negInf
  else .nan

/-- Subtraction on `PVal`, with IEEE-style propagation of `nan` and the
infinities. -/
def PVal.sub : PVal → PVal → PVal
  | nan, _ => nan
  | _, nan => nan
  | fin a, fin b => fin (a - b)
  | fin _, inf => negInf
  | fin _, negInf => inf
  | inf, fin _ => inf
  | inf, inf => nan
  | inf, negInf => inf
  | negInf, fin _ => negInf
  | negInf, inf => negInf
  | negInf, negInf => nan

/-- Addition on `PVal`, with IEEE-style propagation. -/
def PVal.add : PVal → PVal → PVal
  | nan, _ => nan
  | _, nan => nan
  | fin a, fin b => fin (a + b)
  | fin _, inf => inf
  | inf, fin _ => inf
  | inf, inf => inf
  | fin _, negInf => negInf
  | negInf, fin _ => negInf
  | negInf, negInf => negInf
  | inf, negInf => nan
  | negInf, inf => nan

/-- Division on `PVal`. -/
def PVal.div : PVal → PVal → PVal
  | nan, _ => nan
  | _, nan => nan
  | fin a, fin b => pdiv a b
  | fin _, inf => fin 0
  | fin _, negInf => fin 0
  | inf, fin b => if b < 0 then negInf else inf
  | negInf, fin b => if b < 0 then inf else negInf
  | inf, inf => nan
  | inf, negInf => nan
  | negInf, inf => nan
  | negInf, negInf => nan

/-- Strict `<` comparison on `PVal`: `nan` compares false against
everything, as in IEEE arithmetic. -/
def PVal.lt : PVal → PVal → Bool
  | nan, _ => false
  | _, nan => false
  | fin a, fin b => decide (a < b)
  | fin _, inf => true
  | _, negInf => false
  | inf, _ => false
  | negInf, _ => true

/-- Is this value NaN? -/
def PVal.isNan : PVal → Bool
  | nan => true
  | _ => false

/-- Association-list lookup by key, first occurrence wins — the model of
dictionary/label lookup used throughout. -/
def lookupA {α : Type} : List (String × α) → String → Option α
  | [], _ => none
  | (k, v) :: rest, c => if k = c then some v else lookupA rest c

/-- A quarterly balance sheet: reporting-period labels (most recent first)
and one row of per-period values for each available line item. -/
structure BalanceSheet where
  columns : List Nat
  rows : List (String × List ℚ)
deriving DecidableEq

/-- `DataFrame.empty`: true when either axis has length zero. -/
def BalanceSheet.isEmpty (bs : BalanceSheet) : Bool :=
  bs.columns.isEmpty || bs.rows.isEmpty

/-- `bs.loc[item]`: row lookup by line-item label; `none` models the
`KeyError` raised when the label is absent. -/
def BalanceSheet.loc (bs : BalanceSheet) (item : String) : Option (List ℚ) :=
  lookupA bs.rows item

/-- Rectangularity, which every real data frame satisfies: each row has one
value per reporting period. -/
def BalanceSheet.wfb (bs : BalanceSheet) : Bool :=
  bs.rows.all (fun p => p.2.length == bs.columns.length)

/-- One company's ratio table: the period labels (the balance sheet's
columns) and the four derived ratio series. -/
structure RatioTable where
  index : List Nat
  current_Ratio : List PVal
  quick_Ratio : List PVal
  debt_to_Assets : List PVal
  equity_Multiplier : List PVal
deriving DecidableEq

/-- The body of `calculate_financial_ratios` for a single company: looks up
the required line items (each lookup may raise `KeyError`, modelled by the
`Option` bind), treats `Inventory` as the scalar `0` when absent, and forms
the four per-period ratio series.  Returns `none` exactly when the `except`
branch of the source would swallow a `KeyError` and skip the company. -/
def calculate_ratios_one (bs : BalanceSheet) : Option RatioTable := do
  let ca ← bs.loc "Current Assets"
  let cl ← bs.loc "Current Liabilities"
  let curr := List.zipWith pdiv ca cl
  let caMinusInv :=
    match bs.loc "Inventory" with
    | some inv => List.zipWith (fun a b => a - b) ca inv
    | none => ca
  let quick := List.zipWith pdiv caMinusInv cl
  let ta ← bs.loc "Total Assets"
  let tl ← bs.loc "Total Liabilities Net Minority Interest"
  let debt := List.zipWith pdiv tl ta
  let se ← bs.loc "Stockholders Equity"
  let em := List.zipWith pdiv ta se
  return ⟨bs.columns, curr, quick, debt, em⟩

/-- `calculate_financial_ratios`: one ratio table per company whose
computation succeeded, in balance-sheet order. -/
def calculate_financial_ratios (bsheets : List (String × BalanceSheet)) :
    List (String × RatioTable) :=
  bsheets.filterMap (fun p => (calculate_ratios_one p.2).map (fun rt => (p.1, rt)))

/-- `fetch_data`: the external source is a black box mapping a company to
`some bs` (a successful download) or `none` (a retrieval error); a company
absent from the source also models a retrieval error.  Empty tables are
skipped with a warning, exactly like errors. -/
def fetch_data (companies : List String) (source : List (String × Option BalanceSheet)) :
    List (String × BalanceSheet) :=
  companies.filterMap (fun c =>
    match lookupA source c with
    | some (some bs) => if bs.isEmpty then none else some (c, bs)
    | _ => none)

/-- The companies the per-company loops actually touch: the input list,
restricted in order to those with an entry in the given table — the model
of `for company in self.companies: if company in tbl:`. -/
def pairsOf {α : Type} (companies : List String) (tbl : List (String × α)) :
    List (String × α) :=
  companies.filterMap (fun c => (lookupA tbl c).map (fun v => (c, v)))

/-- `plot_current_ratio_comparison`: the data series handed to the line
chart — one `(period, Current_Ratio)` series per company that has a ratio
table, in input order.  Rendering itself is the black-box backend. -/
def plot_current_ratio_comparison (companies : List String)
    (ratios : List (String × RatioTable)) : List (String × List (Nat × PVal)) :=
  (pairsOf companies ratios).map (fun p => (p.1, p.2.index.zip p.2.current_Ratio))

/-- Label-based lookup in a series (`series[date]`): scan the index/value
pairs for the label; `none` models the `KeyError` when the label is
absent. -/
def seriesAt : List Nat → List PVal → Nat → Option PVal
  | [], _, _ => none
  | _ :: _, [], _ => none
  | d :: ds, v :: vs, q => if d = q then some v else seriesAt ds vs q

/-- The four values one company contributes to the radar chart, read at
period `d` in the source's order: Debt_to_Assets, Current_Ratio,
Quick_Ratio, Equity_Multiplier. -/
def radar_values (rt : RatioTable) (d : Nat) : Option (PVal × PVal × PVal × PVal) := do
  let a ← seriesAt rt.index rt.debt_to_Assets d
  let b ← seriesAt rt.index rt.current_Ratio d
  let c ← seriesAt rt.index rt.quick_Ratio d
  let e ← seriesAt rt.index rt.equity_Multiplier d
  return (a, b, c, e)

/-- Collect the radar polygon of every available company at period `d`;
`none` models the first uncaught `KeyError`. -/
def radar_data (d : Nat) : List (String × RatioTable) →
    Option (List (String × (PVal × PVal × PVal × PVal)))
  | [] => some []
  | p :: ps =>
    match radar_values p.2 d, radar_data d ps with
    | some v, some rest => some ((p.1, v) :: rest)
    | _, _ => none

/-- Outcome of radar-chart construction: no data (nothing rendered, no file
written), an uncaught error, or the chart data at the chosen period. -/
inductive RadarResult where
  | noData
  | err (msg : String)
  | chart (d : Nat) (data : List (String × (PVal × PVal × PVal × PVal)))
deriving DecidableEq

/-- Did radar-chart construction raise? -/
def RadarResult.isErr : RadarResult → Bool
  | err _ => true
  | _ => false

/-- `plot_debt_ratio_radar`: if no company has ratio data, return the
"not produced" result; otherwise read every available company's four
ratios at the FIRST available company's most recent period (`index[0]`,
an `IndexError` when the index is empty; a `KeyError` when some company
lacks that period). -/
def plot_debt_ratio_radar (companies : List String)
    (ratios : List (String × RatioTable)) : RadarResult :=
  match pairsOf companies ratios with
  | [] => .noData
  | (c0, rt0) :: rest =>
    match rt0.index.head? with
    | none => .err "IndexError"
    | some d =>
      match radar_data d ((c0, rt0) :: rest) with
      | none => .err "KeyError"
      | some data => .chart d data

/-- The value of a line item at the most recent period (`columns[0]`,
which is position 0 of the row): `none` models the `KeyError` for a
missing label (raised inside the guarded block of the source). -/
def valueAtLatest (bs : BalanceSheet) (item : String) : Option ℚ :=
  (bs.loc item).bind (fun row => row[0]?)

/-- Outcome of one company's composition chart: skipped for lack of a
balance sheet ("No data available"), aborted inside the guarded block
(logged, chart not written), or rendered with the five pie-slice values. -/
inductive CompResult where
  | noData
  | renderError
  | rendered (currentAssets nonCurrentAssets currentLiabilities
      nonCurrentLiabilities equity : ℚ)
deriving DecidableEq

/-- The guarded block of `plot_balance_sheet_composition`: read the line
items of the two pies at the most recent period (the source also reads the
two totals it never charts, so their absence fails the block too); `none`
when any read raises. -/
def composition_values (bs : BalanceSheet) : Option CompResult := do
  let _ta ← valueAtLatest bs "Total Assets"
  let ca ← valueAtLatest bs "Current Assets"
  let nca ← valueAtLatest bs "Total Non Current Assets"
  let _tl ← valueAtLatest bs "Total Liabilities Net Minority Interest"
  let cl ← valueAtLatest bs "Current Liabilities"
  let ncl ← valueAtLatest bs "Total Non Current Liabilities Net Minority Interest"
  let sheq ← valueAtLatest bs "Stockholders Equity"
  return CompResult.rendered ca nca cl ncl sheq

/-- `plot_balance_sheet_composition` for one company: membership in the
fetched balance sheets alone decides whether the chart is attempted; the
`columns[0]` read sits OUTSIDE the guarded block, so an empty column list
is an uncaught `IndexError` (`Except.error`); every line-item read inside
the block is guarded, a failure yielding `renderError`. -/
def plot_balance_sheet_composition (bsheets : List (String × BalanceSheet))
    (company : String) : Except String CompResult :=
  match lookupA bsheets company with
  | none => .ok .noData
  | some bs =>
    match bs.columns.head? with
    | none => .error "IndexError"
    | some _ =>
      match composition_values bs with
      | some r => .ok r
      | none => .ok .renderError

/-- Two-decimal fixed-point rendering of a rational (the `.2f` format
directive): round to the nearest hundredth and print `d.dd`. -/
def fmtQ2 (q : ℚ) : String :=
  let n : Int := round (q * 100)
  let a := n.natAbs
  (if n < 0 then "-" else "") ++ toString (a / 100) ++ "." ++
    (if a % 100 < 10 then "0" else "") ++ toString (a % 100)

/-- The `.2f` format directive on a derived value. -/
def PVal.fmt2 : PVal → String
  | .fin q => fmtQ2 q
  | .inf => "inf"
  | .negInf => "-inf"
  | .nan => "nan"

/-- The `.2%` format directive on a derived value: multiply by 100, render
with two decimals, append a percent sign; NaN renders as `nan%`. -/
def PVal.fmtPct : PVal → String
  | .fin q => fmtQ2 (q * 100) ++ "%"
  | .inf => "inf%"
  | .negInf => "-inf%"
  | .nan => "nan%"

/-- Tail of `Series.pct_change`: the relative change of each element with
respect to its predecessor. -/
def pct_change_aux : PVal → List PVal → List PVal
  | _, [] => []
  | prev, cur :: rest => PVal.div (PVal.sub cur prev) prev :: pct_change_aux cur rest

/-- `Series.pct_change()`: NaN in the first position, then period-over-
period relative changes; the empty series maps to itself. -/
def pct_change : List PVal → List PVal
  | [] => []
  | x :: xs => PVal.nan :: pct_change_aux x xs

/-- `Series.mean()` with its default NaN-skipping: the sum of the non-NaN
entries divided by their count; the count-zero case is `0 / 0 = nan`,
which is what the library returns for an all-NaN series. -/
def series_mean (xs : List PVal) : PVal :=
  let ys := xs.filter (fun v => !v.isNan)
  PVal.div (ys.foldl PVal.add (PVal.fin 0)) (PVal.fin ys.length)

/-- The fixed-width rule line of `"=" * 50`. -/
def ruleEq : String := String.mk (List.replicate 50 '=')

/-- The fixed-width rule line of `"-" * 30`. -/
def ruleDash : String := String.mk (List.replicate 30 '-')

/-- The unconditional lines of one company's report section, through the
`Recommendations:` heading: header, latest-period ratio values with their
fixed explanatory sentences, and the two trend lines computed over the full
ratio series.  `d`, `cr`, `qr`, `da`, `em` are the first (most recent)
entries of the table's index and columns, as read by `index[0]` and
`.loc[latest_date]`. -/
def sectionHead (company : String) (rt : RatioTable) (d : Nat)
    (cr qr da em : PVal) : List String :=
  [company ++ " Company Analysis",
   ruleDash,
   "Analysis Date: " ++ toString d,
   "",
   "Key Financial Ratios:",
   "1. Current Ratio: " ++ cr.fmt2,
   "   - Measures short-term liquidity, 2:1 is generally considered reasonable",
   "2. Quick Ratio: " ++ qr.fmt2,
   "   - Measures immediate liquidity, 1:1 is generally considered reasonable",
   "3. Debt to Assets Ratio: " ++ da.fmtPct,
   "   - Measures long-term solvency, below 70% is generally considered safe",
   "4. Equity Multiplier: " ++ em.fmt2,
   "   - Measures financial leverage, higher values indicate higher leverage",
   "",
   "Trend Analysis:",
   "Current_Ratio Average Change Rate: " ++ (series_mean (pct_change rt.current_Ratio)).fmtPct,
   "Debt_to_Assets Average Change Rate: " ++ (series_mean (pct_change rt.debt_to_Assets)).fmtPct,
   "",
   "Recommendations:"]

/-- The threshold-gated recommendation lines: one when the latest
Current_Ratio is `< 2`, one when the latest Debt_to_Assets is `> 0.7`. -/
def sectionRecs (cr da : PVal) : List String :=
  (if PVal.lt cr (.fin 2) then ["- Monitor short-term liquidity position"] else []) ++
  (if PVal.lt (.fin (7 / 10)) da then ["- High debt ratio, monitor long-term solvency risk"] else [])

/-- The closing lines of a company section. -/
def sectionTail : List String := ["", ruleEq, ""]

/-- One company's block of the report.  The `index[0]` / `.loc[latest_date]`
reads fail (`IndexError`) when the table is empty; that read is inside the
top-level handler only, so it is surfaced as `Except.error`. -/
def companySection (company : String) (rt : RatioTable) : Except String (List String) :=
  match rt.index.head?, rt.current_Ratio.head?, rt.quick_Ratio.head?,
      rt.debt_to_Assets.head?, rt.equity_Multiplier.head? with
  | some d, some cr, some qr, some da, some em =>
    .ok (sectionHead company rt d cr qr da em ++ sectionRecs cr da ++ sectionTail)
  | _, _, _, _, _ => .error "IndexError"

/-- Concatenate the sections of the given companies, stopping at the first
failure as the source's loop would. -/
def sectionsOf : List (String × RatioTable) → Except String (List String)
  | [] => .ok []
  | p :: ps => do
    let s ← companySection p.1 p.2
    let rest ← sectionsOf ps
    return s ++ rest

/-- `generate_analysis_report` as its list of text lines: the fixed header
with the generation timestamp `now`, then one section per company of the
input list that has a ratio table, in input order. -/
def generate_analysis_report (now : String) (companies : List String)
    (ratios : List (String × RatioTable)) : Except String (List String) := do
  let secs ← sectionsOf (pairsOf companies ratios)
  return ["Financial Analysis Report", ruleEq, "", "Report Generated: " ++ now, ""] ++ secs

/-- The composition charts of `main`'s final loop, over the full input
list, stopping at the first uncaught failure. -/
def compositionsAll (bsheets : List (String × BalanceSheet)) :
    List String → Except String (List (String × CompResult))
  | [] => .ok []
  | c :: cs =>
    match plot_balance_sheet_composition bsheets c, compositionsAll bsheets cs with
    | .ok r, .ok rest => .ok ((c, r) :: rest)
    | .error m, _ => .error m
    | _, .error m => .error m

/-- Everything one run produces.  A field is `none` when the run's
top-level handler was reached before that artifact was produced. -/
structure MainOutput where
  balance_sheets : List (String × BalanceSheet)
  ratioTables : List (String × RatioTable)
  lineChart : Option (List (String × List (Nat × PVal)))
  radar : Option RadarResult
  compositions : Option (List (String × CompResult))
  report : Option (List String)
  errMsg : Option String
deriving DecidableEq

/-- `main`: fetch, calculate, render the three chart kinds, write the
report — in that order, under ONE top-level exception handler, so an
uncaught failure in any stage ends the run and skips every later stage.
The radar chart and the composition loop are the stages with uncaught
failure modes. -/
def runMain (companies : List String) (source : List (String × Option BalanceSheet))
    (now : String) : MainOutput :=
  let bsheets := fetch_data companies source
  let rats := calculate_financial_ratios bsheets
  let line := plot_current_ratio_comparison companies rats
  let radar := plot_debt_ratio_radar companies rats
  match radar with
  | .err m => ⟨bsheets, rats, some line, some radar, none, none, some m⟩
  | _ =>
    match compositionsAll bsheets companies with
    | .error m => ⟨bsheets, rats, some line, some radar, none, none, some m⟩
    | .ok comps =>
      match generate_analysis_report now companies rats with
      | .error m => ⟨bsheets, rats, some line, some radar, some comps, none, some m⟩
      | .ok rep => ⟨bsheets, rats, some line, some radar, some comps, some rep, none⟩

/-- A successful association lookup exhibits a member of the list. -/
theorem lookupA_some_mem {α : Type} {xs : List (String × α)} {c : String} {v : α}
    (h : lookupA xs c = some v) : (c, v) ∈ xs := by
  induction xs with
  | nil => simp [lookupA] at h
  | cons p rest ih =>
    obtain ⟨k, w⟩ := p
    by_cases hk : k = c
    · subst hk
      simp [lookupA] at h
      subst h
      exact List.mem_cons_self _ _
    · simp [lookupA, hk] at h
      exact List.mem_cons_of_mem _ (ih h)

/-- A key that labels no member of the list looks up to `none`. -/
theorem lookupA_eq_none {α : Type} {xs : List (String × α)} {c : String}
    (h : ∀ v : α, (c, v) ∉ xs) : lookupA xs c = none := by
  induction xs with
  | nil => rfl
  | cons p rest ih =>
    obtain ⟨k, w⟩ := p
    by_cases hk : k = c
    · subst hk
      exact absurd (List.mem_cons_self _ _) (h w)
    · simp only [lookupA, hk, if_false]
      exact ih (fun v hv => h v (List.mem_cons_of_mem _ hv))

/-- Membership in the per-company selection: each selected pair is an input
company together with its table entry. -/
theorem mem_pairsOf {α : Type} {companies : List String} {tbl : List (String × α)}
    {p : String × α} (h : p ∈ pairsOf companies tbl) :
    p.1 ∈ companies ∧ lookupA tbl p.1 = some p.2 := by
  obtain ⟨c, hc, hm⟩ := List.mem_filterMap.mp h
  cases hl : lookupA tbl c with
  | none => simp [hl] at hm
  | some v =>
    simp [hl] at hm
    cases hm
    exact ⟨hc, hl⟩

/-- The keys of the per-company selection are the input companies with a
table entry, in input order. -/
theorem pairsOf_map_fst {α : Type} (companies : List String) (tbl : List (String × α)) :
    (pairsOf companies tbl).map Prod.fst
      = companies.filter (fun c => (lookupA tbl c).isSome) := by
  induction companies with
  | nil => rfl
  | cons c rest ih =>
    cases hl : lookupA tbl c with
    | none => simpa [pairsOf, List.filterMap_cons, hl, List.filter_cons] using ih
    | some v => simpa [pairsOf, List.filterMap_cons, hl, List.filter_cons] using ih

/-- The selection distributes over appending company lists. -/
theorem pairsOf_append {α : Type} (l₁ l₂ : List String) (tbl : List (String × α)) :
    pairsOf (l₁ ++ l₂) tbl = pairsOf l₁ tbl ++ pairsOf l₂ tbl :=
  List.filterMap_append _ _ _

/-- A company with no table entry contributes nothing to the selection. -/
theorem pairsOf_cons_none {α : Type} {c : String} {tbl : List (String × α)}
    (companies : List String) (h : lookupA tbl c = none) :
    pairsOf (c :: companies) tbl = pairsOf companies tbl := by
  simp [pairsOf, List.filterMap_cons, h]

/-- A company with no table entry is not among the selection's keys. -/
theorem not_mem_pairsOf_keys {α : Type} {c : String} {tbl : List (String × α)}
    (companies : List String) (h : lookupA tbl c = none) :
    c ∉ (pairsOf companies tbl).map Prod.fst := by
  intro hc
  obtain ⟨p, hp, hfst⟩ := List.mem_map.mp hc
  obtain ⟨-, hl⟩ := mem_pairsOf hp
  rw [hfst] at hl
  rw [h] at hl
  cases hl

/-- What membership in the fetched balance sheets guarantees: the company
was requested, the source returned exactly this table, and it is
non-empty. -/
theorem mem_fetch {companies : List String} {source : List (String × Option BalanceSheet)}
    {p : String × BalanceSheet} (h : p ∈ fetch_data companies source) :
    p.1 ∈ companies ∧ lookupA source p.1 = some (some p.2) ∧ p.2.isEmpty = false := by
  obtain ⟨c, hc, hm⟩ := List.mem_filterMap.mp h
  cases hl : lookupA source c with
  | none => simp [hl] at hm
  | some ob =>
    cases ob with
    | none => simp [hl] at hm
    | some bs =>
      by_cases he : bs.isEmpty
      · simp [hl, he] at hm
      · simp [hl, he] at hm
        cases hm
        exact ⟨hc, hl, by simpa using he⟩

/-- What membership in the ratio tables guarantees: a fetched balance sheet
for the same company whose ratio computation succeeded. -/
theorem mem_calc {bsheets : List (String × BalanceSheet)} {p : String × RatioTable}
    (h : p ∈ calculate_financial_ratios bsheets) :
    ∃ bs, (p.1, bs) ∈ bsheets ∧ calculate_ratios_one bs = some p.2 := by
  obtain ⟨q, hq, hm⟩ := List.mem_filterMap.mp h
  cases hr : calculate_ratios_one q.2 with
  | none => simp [hr] at hm
  | some rt =>
    simp [hr] at hm
    cases hm
    exact ⟨q.2, hq, hr⟩

/-- A label found by the series scan is a member of the index. -/
theorem seriesAt_some_mem {ds : List Nat} {vs : List PVal} {q : Nat} {v : PVal}
    (h : seriesAt ds vs q = some v) : q ∈ ds := by
  induction ds generalizing vs with
  | nil => simp [seriesAt] at h
  | cons d rest ih =>
    cases vs with
    | nil => simp [seriesAt] at h
    | cons w ws =>
      by_cases hd : d = q
      · exact hd ▸ List.mem_cons_self _ _
      · simp only [seriesAt, hd, if_false] at h
        exact List.mem_cons_of_mem _ (ih h)

/-- Destructuring a successful per-company ratio computation: all five
required line items were found, and the resulting table is exactly the
four `zipWith`-ed ratio series over the balance sheet's columns. -/
theorem calc_one_some {bs : BalanceSheet} {rt : RatioTable}
    (h : calculate_ratios_one bs = some rt) :
    ∃ ca cl ta tl se,
      bs.loc "Current Assets" = some ca ∧
      bs.loc "Current Liabilities" = some cl ∧
      bs.loc "Total Assets" = some ta ∧
      bs.loc "Total Liabilities Net Minority Interest" = some tl ∧
      bs.loc "Stockholders Equity" = some se ∧
      rt = ⟨bs.columns,
            List.zipWith pdiv ca cl,
            List.zipWith pdiv
              (match bs.loc "Inventory" with
               | some inv => List.zipWith (fun a b => a - b) ca inv
               | none => ca) cl,
            List.zipWith pdiv tl ta,
            List.zipWith pdiv ta se⟩ := by
  cases hca : bs.loc "Current Assets" with
  | none => simp [calculate_ratios_one, hca] at h
  | some ca =>
  cases hcl : bs.loc "Current Liabilities" with
  | none => simp [calculate_ratios_one, hca, hcl] at h
  | some cl =>
  cases hta : bs.loc "Total Assets" with
  | none => simp [calculate_ratios_one, hca, hcl, hta] at h
  | some ta =>
  cases htl : bs.loc "Total Liabilities Net Minority Interest" with
  | none => simp [calculate_ratios_one, hca, hcl, hta, htl] at h
  | some tl =>
  cases hse : bs.loc "Stockholders Equity" with
  | none => simp [calculate_ratios_one, hca, hcl, hta, htl, hse] at h
  | some se =>
    refine ⟨ca, cl, ta, tl, se, rfl, rfl, rfl, rfl, rfl, ?_⟩
    simp [calculate_ratios_one, hca, hcl, hta, htl, hse] at h
    exact h.symm

/-- C1: for a company whose balance sheet has the `Current Assets` and
`Current Liabilities` line items with a non-zero Current Liabilities value
in every period, the ratio table produced by the ratio calculator has, in
each period, `Current_Ratio` equal to that period's Current Assets divided
by Current Liabilities. -/
theorem C1_current_ratio_exact (bs : BalanceSheet) (rt : RatioTable) (ca cl : List ℚ)
    (hca : bs.loc "Current Assets" = some ca)
    (hcl : bs.loc "Current Liabilities" = some cl)
    (hnz : ∀ x ∈ cl, x ≠ 0)
    (hrt : calculate_ratios_one bs = some rt) :
    ∀ (p : Nat) (a b : ℚ), ca[p]? = some a → cl[p]? = some b →
      rt.current_Ratio[p]? = some (PVal.fin (a / b)) := by
  intro p a b hpa hpb
  obtain ⟨ca', cl', ta, tl, se, hca', hcl', -, -, -, hrt'⟩ := calc_one_some hrt
  have hcaa : ca = ca' := Option.some.inj (hca.symm.trans hca')
  have hcll : cl = cl' := Option.some.inj (hcl.symm.trans hcl')
  subst hcaa hcll hrt'
  have hb : b ≠ 0 := hnz b (List.getElem?_mem hpb)
  have : pdiv a b = PVal.fin (a / b) := by simp [pdiv, hb]
  exact (List.getElem?_zipWith_eq_some).mpr ⟨a, b, hpa, hpb, this⟩

/-- A two-period balance sheet with every line item present (inventory is
zero in the older period). -/
def bsFull : BalanceSheet :=
  ⟨[2, 1],
   [("Current Assets", [4, 6]),
    ("Current Liabilities", [2, 3]),
    ("Inventory", [1, 0]),
    ("Total Assets", [10, 12]),
    ("Total Liabilities Net Minority Interest", [5, 6]),
    ("Total Non Current Assets", [6, 6]),
    ("Total Non Current Liabilities Net Minority Interest", [3, 3]),
    ("Stockholders Equity", [5, 6])]⟩

/-- The ratio table the calculator produces from `bsFull`. -/
def rtFull : RatioTable :=
  ⟨[2, 1],
   [.fin 2, .fin 2],
   [.fin (3 / 2), .fin 2],
   [.fin (1 / 2), .fin (1 / 2)],
   [.fin 2, .fin 2]⟩

/-- C1, instantiated: on `bsFull` the most recent period's Current_Ratio is
`4 / 2`. -/
theorem C1_witness : rtFull.current_Ratio[0]? = some (PVal.fin (4 / 2)) :=
  C1_current_ratio_exact bsFull rtFull [4, 6] [2, 3] (by with_unfolding_all decide)
    (by with_unfolding_all decide) (by with_unfolding_all decide)
    (by with_unfolding_all decide) 0 4 2 (by with_unfolding_all decide)
    (by with_unfolding_all decide)

/-- C3: in any computed ratio table, if the `Inventory` line item is absent
from the balance sheet, or its value in a period is zero, then that
period's Quick_Ratio equals its Current_Ratio. -/
theorem C3_quick_eq_current (bs : BalanceSheet) (rt : RatioTable) (p : Nat)
    (hrt : calculate_ratios_one bs = some rt)
    (hinv : bs.loc "Inventory" = none ∨
      ∃ invs, bs.loc "Inventory" = some invs ∧ invs[p]? = some 0) :
    rt.quick_Ratio[p]? = rt.current_Ratio[p]? := by
  obtain ⟨ca, cl, ta, tl, se, hca, hcl, hta, htl, hse, hrt'⟩ := calc_one_some hrt
  subst hrt'
  rcases hinv with hnone | ⟨invs, hsome, hzero⟩
  · simp [hnone]
  · simp only [hsome]
    cases hcap : ca[p]? with
    | none => simp [List.getElem?_zipWith', hcap]
    | some a =>
      cases hclp : cl[p]? with
      | none => simp [List.getElem?_zipWith', hcap, hclp, hzero]
      | some b => simp [List.getElem?_zipWith', hcap, hclp, hzero]

/-- C3, instantiated: on `bsFull`, whose inventory is zero in the older
period, that period's Quick_Ratio equals its Current_Ratio. -/
theorem C3_witness : rtFull.quick_Ratio[1]? = rtFull.current_Ratio[1]? :=
  C3_quick_eq_current bsFull rtFull 1 (by with_unfolding_all decide)
    (Or.inr ⟨[1, 0], by with_unfolding_all decide, by with_unfolding_all decide⟩)

/-- A one-period balance sheet with every required line item present and a
ZERO Current Liabilities value — a division-by-zero denominator. -/
def bsZeroCL : BalanceSheet :=
  ⟨[1],
   [("Current Assets", [4]),
    ("Current Liabilities", [0]),
    ("Total Assets", [10]),
    ("Total Liabilities Net Minority Interest", [5]),
    ("Stockholders Equity", [5])]⟩

/-- C2 is FALSE on the code: a company whose Current Liabilities is zero in
a period is NOT skipped — the numeric library turns the division by zero
into an infinite value and the company still receives a ratio-table entry
(here with `Current_Ratio = inf`). -/
theorem C2_counterexample :
    (bsZeroCL.loc "Current Liabilities" = some [0]) ∧
      lookupA (calculate_financial_ratios [("X", bsZeroCL)]) "X"
        = some ⟨[1], [.inf], [.inf], [.fin (1 / 2)], [.fin 2]⟩ := by
  with_unfolding_all decide

/-- C2 as amended: the ratio calculator skips a company exactly on a
MISSING required line item; a zero denominator never causes a skip — when
all five required line items are present the company receives a ratio
table whatever the denominators are. -/
theorem C2_amended_skip_iff_missing (bs : BalanceSheet) :
    (((bs.loc "Current Assets").isSome ∧ (bs.loc "Current Liabilities").isSome ∧
        (bs.loc "Total Assets").isSome ∧
        (bs.loc "Total Liabilities Net Minority Interest").isSome ∧
        (bs.loc "Stockholders Equity").isSome) →
      (calculate_ratios_one bs).isSome) ∧
    (((bs.loc "Current Assets").isNone ∨ (bs.loc "Current Liabilities").isNone ∨
        (bs.loc "Total Assets").isNone ∨
        (bs.loc "Total Liabilities Net Minority Interest").isNone ∨
        (bs.loc "Stockholders Equity").isNone) →
      calculate_ratios_one bs = none) := by
  constructor
  · rintro ⟨hca, hcl, hta, htl, hse⟩
    obtain ⟨ca, hca⟩ := Option.isSome_iff_exists.mp hca
    obtain ⟨cl, hcl⟩ := Option.isSome_iff_exists.mp hcl
    obtain ⟨ta, hta⟩ := Option.isSome_iff_exists.mp hta
    obtain ⟨tl, htl⟩ := Option.isSome_iff_exists.mp htl
    obtain ⟨se, hse⟩ := Option.isSome_iff_exists.mp hse
    simp [calculate_ratios_one, hca, hcl, hta, htl, hse]
  · intro h
    rcases h with h | h | h | h | h <;>
      · rw [Option.isNone_iff_eq_none] at h
        cases hca : bs.loc "Current Assets" <;>
          cases hcl : bs.loc "Current Liabilities" <;>
            cases hta : bs.loc "Total Assets" <;>
              cases htl : bs.loc "Total Liabilities Net Minority Interest" <;>
                cases hse : bs.loc "Stockholders Equity" <;>
                  simp_all [calculate_ratios_one]

/-- C2 amended, instantiated: `bsZeroCL` has all required items and a zero
denominator, and is not skipped. -/
theorem C2_amended_witness : (calculate_ratios_one bsZeroCL).isSome :=
  (C2_amended_skip_iff_missing bsZeroCL).1
    ⟨by with_unfolding_all decide, by with_unfolding_all decide,
     by with_unfolding_all decide, by with_unfolding_all decide,
     by with_unfolding_all decide⟩

/-- C6: when no requested company has a ratio table, radar-chart
construction returns the "not produced" result `noData`, which carries no
chart data — nothing is rendered and no file is written. -/
theorem C6_radar_no_data (companies : List String) (ratios : List (String × RatioTable))
    (h : ∀ c ∈ companies, lookupA ratios c = none) :
    plot_debt_ratio_radar companies ratios = .noData := by
  have hp : pairsOf companies ratios = [] := by
    refine List.filterMap_eq_nil_iff.mpr (fun c hc => ?_)
    rw [h c hc]
    rfl
  rw [plot_debt_ratio_radar, hp]

/-- C6, instantiated: with an empty ratio table nothing is produced. -/
theorem C6_witness : plot_debt_ratio_radar ["AAPL", "MSFT"] [] = .noData :=
  C6_radar_no_data ["AAPL", "MSFT"] [] (by decide)

/-- Two strings whose first characters differ are different, even after the
first is extended on the right. -/
theorem append_ne_of_head (c₁ c₂ : Char) (p s t : String)
    (h₁ : p.data.head? = some c₁) (h₂ : t.data.head? = some c₂) (h : c₁ ≠ c₂) :
    p ++ s ≠ t := by
  intro he
  have hd : p.data ++ s.data = t.data := congrArg String.data he
  cases hp : p.data with
  | nil => rw [hp] at h₁; cases h₁
  | cons x xs =>
    rw [hp] at h₁ hd
    have hx : x = c₁ := by simpa using h₁
    rw [← hd] at h₂
    have : x = c₂ := by simpa using h₂
    exact h (hx ▸ this)

/-- Two strings whose last characters differ are different, even after the
second of the two is extended on the left. -/
theorem append_ne_of_getLast (c₁ c₂ : Char) (s q t : String)
    (h₁ : q.data.getLast? = some c₁) (h₂ : t.data.getLast? = some c₂) (h : c₁ ≠ c₂) :
    s ++ q ≠ t := by
  intro he
  have hd : s.data ++ q.data = t.data := congrArg String.data he
  have hq : q.data ≠ [] := by
    intro hnil
    rw [hnil] at h₁
    cases h₁
  have hlast : (s.data ++ q.data).getLast? = some c₁ := by
    rw [List.getLast?_append_of_ne_nil s.data hq]
    exact h₁
  rw [hd, h₂] at hlast
  exact h (Option.some.inj hlast).symm

/-- No line of the unconditional section block starts with a dash, except
the fixed dash rule: any string that starts with `-`, differs from the
dash rule, and does not end in `s` (the final letter of the section
header) is absent from the block, whatever the company and values are. -/
theorem not_mem_sectionHead (c : String) (rt : RatioTable) (d : Nat)
    (cr qr da em : PVal) (t : String)
    (h0 : t.data.head? = some '-')
    (hdash : t ≠ ruleDash)
    (hlast : t.data.getLast? ≠ some 's') :
    t ∉ sectionHead c rt d cr qr da em := by
  intro hmem
  simp only [sectionHead, List.mem_cons, List.not_mem_nil, or_false] at hmem
  rcases hmem with h|h|h|h|h|h|h|h|h|h|h|h|h|h|h|h|h|h|h
  · refine hlast ?_
    have hd : t.data = c.data ++ (" Company Analysis" : String).data :=
      congrArg String.data h
    rw [hd, List.getLast?_append_of_ne_nil c.data (by decide)]
    decide
  · exact hdash h
  · exact append_ne_of_head 'A' '-' "Analysis Date: " (toString d) t (by decide) h0
      (by decide) h.symm
  · rw [h] at h0; exact absurd h0 (by decide)
  · rw [h] at h0; exact absurd h0 (by decide)
  · exact append_ne_of_head '1' '-' "1. Current Ratio: " cr.fmt2 t (by decide) h0
      (by decide) h.symm
  · rw [h] at h0; exact absurd h0 (by decide)
  · exact append_ne_of_head '2' '-' "2. Quick Ratio: " qr.fmt2 t (by decide) h0
      (by decide) h.symm
  · rw [h] at h0; exact absurd h0 (by decide)
  · exact append_ne_of_head '3' '-' "3. Debt to Assets Ratio: " da.fmtPct t (by decide) h0
      (by decide) h.symm
  · rw [h] at h0; exact absurd h0 (by decide)
  · exact append_ne_of_head '4' '-' "4. Equity Multiplier: " em.fmt2 t (by decide) h0
      (by decide) h.symm
  · rw [h] at h0; exact absurd h0 (by decide)
  · rw [h] at h0; exact absurd h0 (by decide)
  · rw [h] at h0; exact absurd h0 (by decide)
  · exact append_ne_of_head 'C' '-' "Current_Ratio Average Change Rate: "
      (series_mean (pct_change rt.current_Ratio)).fmtPct t (by decide) h0
      (by decide) h.symm
  · exact append_ne_of_head 'D' '-' "Debt_to_Assets Average Change Rate: "
      (series_mean (pct_change rt.debt_to_Assets)).fmtPct t (by decide) h0
      (by decide) h.symm
  · rw [h] at h0; exact absurd h0 (by decide)
  · rw [h] at h0; exact absurd h0 (by decide)

/-- The liquidity warning sits in the recommendation block exactly when the
latest Current_Ratio compares `< 2`. -/
theorem monitor_mem_sectionRecs (cr da : PVal) :
    "- Monitor short-term liquidity position" ∈ sectionRecs cr da ↔
      PVal.lt cr (.fin 2) = true := by
  by_cases h2 : PVal.lt cr (.fin 2) <;>
    by_cases h7 : PVal.lt (.fin (7 / 10)) da <;>
      simp [sectionRecs, h2, h7]

/-- The high-debt warning sits in the recommendation block exactly when the
latest Debt_to_Assets compares `> 0.7`. -/
theorem highdebt_mem_sectionRecs (cr da : PVal) :
    "- High debt ratio, monitor long-term solvency risk" ∈ sectionRecs cr da ↔
      PVal.lt (.fin (7 / 10)) da = true := by
  by_cases h2 : PVal.lt cr (.fin 2) <;>
    by_cases h7 : PVal.lt (.fin (7 / 10)) da <;>
      simp [sectionRecs, h2, h7]

/-- C4: in a generated company section, the line
`- Monitor short-term liquidity position` appears iff the most recent
period's Current_Ratio is strictly less than 2 (absent at exactly 2.00),
and the high-debt warning appears iff the most recent period's
Debt_to_Assets is strictly greater than 0.70 (present at 0.75). -/
theorem C4_recommendation_thresholds (c : String) (rt : RatioTable)
    (lines : List String) (cr da : PVal)
    (hcr : rt.current_Ratio.head? = some cr)
    (hda : rt.debt_to_Assets.head? = some da)
    (h : companySection c rt = .ok lines) :
    (("- Monitor short-term liquidity position" ∈ lines) ↔
        PVal.lt cr (.fin 2) = true) ∧
    (("- High debt ratio, monitor long-term solvency risk" ∈ lines) ↔
        PVal.lt (.fin (7 / 10)) da = true) := by
  cases hidx : rt.index.head? with
  | none => rw [companySection, hidx] at h; cases h
  | some d =>
  cases hqr : rt.quick_Ratio.head? with
  | none => rw [companySection, hidx, hcr, hqr] at h; cases h
  | some qr =>
  cases hem : rt.equity_Multiplier.head? with
  | none => rw [companySection, hidx, hcr, hqr, hda, hem] at h; cases h
  | some em =>
    rw [companySection, hidx, hcr, hqr, hda, hem] at h
    have hlines : lines = sectionHead c rt d cr qr da em ++ sectionRecs cr da
        ++ sectionTail := (Except.ok.inj h).symm
    subst hlines
    constructor
    · constructor
      · intro hmem
        rcases List.mem_append.mp hmem with hmem | htail
        · rcases List.mem_append.mp hmem with hhead | hrecs
          · exact absurd hhead (not_mem_sectionHead c rt d cr qr da em _
              (by decide) (by decide) (by decide))
          · exact (monitor_mem_sectionRecs cr da).mp hrecs
        · exact absurd htail (by decide)
      · intro hlt
        exact List.mem_append.mpr (Or.inl (List.mem_append.mpr
          (Or.inr ((monitor_mem_sectionRecs cr da).mpr hlt))))
    · constructor
      · intro hmem
        rcases List.mem_append.mp hmem with hmem | htail
        · rcases List.mem_append.mp hmem with hhead | hrecs
          · exact absurd hhead (not_mem_sectionHead c rt d cr qr da em _
              (by decide) (by decide) (by decide))
          · exact (highdebt_mem_sectionRecs cr da).mp hrecs
        · exact absurd htail (by decide)
      · intro hlt
        exact List.mem_append.mpr (Or.inl (List.mem_append.mpr
          (Or.inr ((highdebt_mem_sectionRecs cr da).mpr hlt))))

/-- A one-period ratio table whose latest Current_Ratio is exactly 2 and
whose latest Debt_to_Assets is 0.75. -/
def rtC4 : RatioTable := ⟨[1], [.fin 2], [.fin 2], [.fin (3 / 4)], [.fin 2]⟩

/-- The section the report generator produces for `rtC4`. -/
def c4lines : List String := ((companySection "A" rtC4).toOption).getD []

/-- C4, instantiated: at Current_Ratio exactly 2.00 the liquidity line is
governed by the (false) strict comparison, and at Debt_to_Assets 0.75 the
high-debt line is governed by the (true) strict comparison. -/
theorem C4_witness :
    (("- Monitor short-term liquidity position" ∈ c4lines) ↔
        PVal.lt (.fin 2) (.fin 2) = true) ∧
    (("- High debt ratio, monitor long-term solvency risk" ∈ c4lines) ↔
        PVal.lt (.fin (7 / 10)) (.fin (3 / 4)) = true) :=
  C4_recommendation_thresholds "A" rtC4 c4lines (.fin 2) (.fin (3 / 4)) rfl rfl
    (by with_unfolding_all rfl)

/-- A single-period ratio table (as computed for a company with only one
reported quarter). -/
def rtOne : RatioTable := ⟨[1], [.fin 2], [.fin 2], [.fin (5 / 6)], [.fin 6]⟩

/-- C8 is FALSE on the code: with fewer than two periods the trend section
does not say the trend cannot be computed — the library's mean of an empty
change series is NaN, no exception is raised, and the section prints the
non-message value `nan%`. -/
theorem C8_counterexample :
    rtOne.index.length < 2 ∧
      "Current_Ratio Average Change Rate: nan%" ∈
        (companySection "X" rtOne).toOption.getD [] := by
  with_unfolding_all decide

/-- C8 as amended: for a company whose ratio table has exactly one period,
section generation succeeds (it does not fail) and the trend lines read
`... Average Change Rate: nan%` — a NaN value, not a cannot-compute
message. -/
theorem C8_amended_nan_trend (c : String) (rt : RatioTable) (d : Nat)
    (cr qr da em : PVal)
    (hidx : rt.index = [d]) (hcr : rt.current_Ratio = [cr])
    (hqr : rt.quick_Ratio = [qr]) (hda : rt.debt_to_Assets = [da])
    (hem : rt.equity_Multiplier = [em]) :
    companySection c rt = .ok (sectionHead c rt d cr qr da em
        ++ sectionRecs cr da ++ sectionTail) ∧
      "Current_Ratio Average Change Rate: nan%" ∈
        sectionHead c rt d cr qr da em ∧
      "Debt_to_Assets Average Change Rate: nan%" ∈
        sectionHead c rt d cr qr da em := by
  have hnan : ∀ v : PVal, series_mean (pct_change [v]) = PVal.nan := by
    intro v
    show series_mean [PVal.nan] = PVal.nan
    with_unfolding_all decide
  have h2 : "Current_Ratio Average Change Rate: "
      ++ (series_mean (pct_change rt.current_Ratio)).fmtPct
      = "Current_Ratio Average Change Rate: nan%" := by
    rw [hcr, hnan]
    rfl
  have h3 : "Debt_to_Assets Average Change Rate: "
      ++ (series_mean (pct_change rt.debt_to_Assets)).fmtPct
      = "Debt_to_Assets Average Change Rate: nan%" := by
    rw [hda, hnan]
    rfl
  refine ⟨?_, ?_, ?_⟩
  · simp only [companySection, hidx, hcr, hqr, hda, hem, List.head?_cons]
  · rw [← h2]
    simp [sectionHead]
  · rw [← h3]
    simp [sectionHead]

/-- C8 amended, instantiated on the single-period table `rtOne`. -/
theorem C8_witness :
    "Current_Ratio Average Change Rate: nan%" ∈
        (companySection "X" rtOne).toOption.getD [] ∧
      "Debt_to_Assets Average Change Rate: nan%" ∈
        (companySection "X" rtOne).toOption.getD [] := by
  obtain ⟨hok, h1, h2⟩ := C8_amended_nan_trend "X" rtOne 1 (.fin 2) (.fin 2)
    (.fin (5 / 6)) (.fin 6) rfl rfl rfl rfl rfl
  rw [hok]
  exact ⟨List.mem_append.mpr (Or.inl (List.mem_append.mpr (Or.inl h1))),
    List.mem_append.mpr (Or.inl (List.mem_append.mpr (Or.inl h2)))⟩

/-- A company contributes radar values at `d` only if `d` is one of its
reporting periods. -/
theorem radar_values_some_mem {rt : RatioTable} {d : Nat}
    {v : PVal × PVal × PVal × PVal} (h : radar_values rt d = some v) :
    d ∈ rt.index := by
  cases ha : seriesAt rt.index rt.debt_to_Assets d with
  | none => rw [radar_values, ha] at h; cases h
  | some a => exact seriesAt_some_mem ha

/-- Destructuring a successful radar-data collection: the polygons are in
company order, every listed company contributed, and each polygon is that
company's four ratio values at `d`. -/
theorem radar_data_some {d : Nat} :
    ∀ {ps : List (String × RatioTable)}
      {data : List (String × (PVal × PVal × PVal × PVal))},
      radar_data d ps = some data →
      data.map Prod.fst = ps.map Prod.fst ∧
      (∀ p ∈ ps, (radar_values p.2 d).isSome) ∧
      (∀ x ∈ data, ∃ rt, (x.1, rt) ∈ ps ∧ radar_values rt d = some x.2) := by
  intro ps
  induction ps with
  | nil =>
    intro data h
    cases h
    exact ⟨rfl, by simp, by simp⟩
  | cons p rest ih =>
    intro data h
    cases hv : radar_values p.2 d with
    | none => rw [radar_data, hv] at h; cases h
    | some v =>
      cases hr : radar_data d rest with
      | none => rw [radar_data, hv, hr] at h; cases h
      | some restData =>
        rw [radar_data, hv, hr] at h
        cases h
        obtain ⟨ih1, ih2, ih3⟩ := ih hr
        refine ⟨by simp [ih1], ?_, ?_⟩
        · intro q hq
          rcases List.mem_cons.mp hq with hq | hq
          · rw [hq, hv]; rfl
          · exact ih2 q hq
        · intro x hx
          rcases List.mem_cons.mp hx with hx | hx
          · exact ⟨p.2, by rw [hx]; exact ⟨List.mem_cons_self _ _, hv⟩⟩
          · obtain ⟨rt, hm, hrv⟩ := ih3 x hx
            exact ⟨rt, List.mem_cons_of_mem _ hm, hrv⟩

/-- Two single-company ratio tables whose period sets differ: company A has
periods `[2, 1]`, company B only `[1]`. -/
def rtA2 : RatioTable :=
  ⟨[2, 1], [.fin 2, .fin 2], [.fin 2, .fin 2],
   [.fin (1 / 2), .fin (1 / 2)], [.fin 2, .fin 2]⟩

/-- Ratio tables for two companies that share period 1, but whose first
company also has the more recent period 2. -/
def exRatios : List (String × RatioTable) := [("A", rtA2), ("B", rtOne)]

/-- C5 is FALSE on the code: both companies have ratio tables and share
the common period 1, so a most-recent common period exists, yet radar
construction reads every company at the FIRST company's most recent period
(2), which company B lacks — it raises `KeyError` instead of plotting at
the common period. -/
theorem C5_counterexample :
    (lookupA exRatios "A").isSome ∧ (lookupA exRatios "B").isSome ∧
      (∀ p ∈ pairsOf ["A", "B"] exRatios, (1 : Nat) ∈ p.2.index) ∧
      plot_debt_ratio_radar ["A", "B"] exRatios = .err "KeyError" := by
  with_unfolding_all decide

/-- C5 as amended: the radar chart is drawn at the FIRST available
company's most recent period.  When construction succeeds (no company
lacks that period) and each index is sorted most-recent-first, that period
is indeed the most recent period common to all plotted companies, each of
which contributes its four ratio values there; but when some plotted
company lacks the first company's most recent period, construction raises
instead of falling back to a common period. -/
theorem C5_amended_radar_period (companies : List String)
    (ratios : List (String × RatioTable)) (d : Nat)
    (data : List (String × (PVal × PVal × PVal × PVal)))
    (hsorted : ∀ p ∈ pairsOf companies ratios,
      List.Pairwise (fun a b => b < a) p.2.index)
    (hchart : plot_debt_ratio_radar companies ratios = .chart d data) :
    data.map Prod.fst = (pairsOf companies ratios).map Prod.fst ∧
      (∀ p ∈ pairsOf companies ratios, d ∈ p.2.index) ∧
      (∀ q : Nat, (∀ p ∈ pairsOf companies ratios, q ∈ p.2.index) → q ≤ d) ∧
      (∀ x ∈ data, ∃ rt, (x.1, rt) ∈ pairsOf companies ratios ∧
        radar_values rt d = some x.2) := by
  rw [plot_debt_ratio_radar] at hchart
  cases hpairs : pairsOf companies ratios with
  | nil => rw [hpairs] at hchart; cases hchart
  | cons p0 rest =>
    rw [hpairs] at hchart
    obtain ⟨c0, rt0⟩ := p0
    dsimp only at hchart
    cases hidx : rt0.index with
    | nil =>
      rw [hidx] at hchart
      simp only [List.head?_nil] at hchart
      cases hchart
    | cons d0 tail =>
      rw [hidx] at hchart
      simp only [List.head?_cons] at hchart
      cases hrd : radar_data d0 ((c0, rt0) :: rest) with
      | none => rw [hrd] at hchart; cases hchart
      | some data0 =>
        rw [hrd] at hchart
        cases hchart
        obtain ⟨h1, h2, h3⟩ := radar_data_some hrd
        have hmem : ∀ p ∈ (c0, rt0) :: rest, d ∈ p.2.index := by
          intro p hp
          obtain ⟨v, hv⟩ := Option.isSome_iff_exists.mp (h2 p hp)
          exact radar_values_some_mem hv
        refine ⟨h1, hmem, ?_, h3⟩
        intro q hq
        have hq0 : q ∈ rt0.index :=
          hq (c0, rt0) (List.mem_cons_self _ _)
        have hpair : List.Pairwise (fun a b => b < a) rt0.index := by
          have := hsorted (c0, rt0)
          rw [hpairs] at this
          exact this (List.mem_cons_self _ _)
        rw [hidx] at hq0 hpair
        rcases List.mem_cons.mp hq0 with hq0 | hq0
        · exact Nat.le_of_eq hq0
        · exact Nat.le_of_lt ((List.pairwise_cons.mp hpair).1 q hq0)

/-- Two companies with identical period sets `[2, 1]`. -/
def exRatiosOk : List (String × RatioTable) := [("A", rtA2), ("B", rtA2)]

/-- The radar polygons produced from `exRatiosOk` at period 2. -/
def exChartData : List (String × (PVal × PVal × PVal × PVal)) :=
  [("A", (.fin (1 / 2), .fin 2, .fin 2, .fin 2)),
   ("B", (.fin (1 / 2), .fin 2, .fin 2, .fin 2))]

/-- C5 amended, instantiated: on `exRatiosOk` the chart is produced at
period 2, whose polygons cover exactly the available companies, and the
common period 1 is indeed no more recent than the chosen period. -/
theorem C5_witness :
    exChartData.map Prod.fst = (pairsOf ["A", "B"] exRatiosOk).map Prod.fst ∧
      (1 : Nat) ≤ 2 := by
  obtain ⟨h1, h2, h3, h4⟩ := C5_amended_radar_period ["A", "B"] exRatiosOk 2
    exChartData (by with_unfolding_all decide) (by with_unfolding_all rfl)
  exact ⟨h1, h3 1 (by with_unfolding_all decide)⟩

/-- The ratio tables a run derives from its input list and source: the
fetch stage composed with the calculation stage. -/
def pipeline_ratio_tables (companies : List String)
    (source : List (String × Option BalanceSheet)) : List (String × RatioTable) :=
  calculate_financial_ratios (fetch_data companies source)

/-- C7: with a company `c` whose fetched source table is empty, `c` gets no
balance-sheet and no ratio-table entry; the report's sections cover, in
input order, exactly the companies with a ratio entry — `c` not among
them; `c` contributes no series to the line chart, no polygon to the radar
chart, and only the "no data" result to its composition chart; and
removing `c` from the input list changes neither the fetched tables, the
line chart, the radar chart, nor the report. -/
theorem C7_empty_company_isolated (l₁ l₂ : List String) (c : String)
    (source : List (String × Option BalanceSheet)) (now : String) (bsE : BalanceSheet)
    (hsrc : lookupA source c = some (some bsE)) (hempty : bsE.isEmpty = true) :
    lookupA (fetch_data (l₁ ++ c :: l₂) source) c = none ∧
      lookupA (pipeline_ratio_tables (l₁ ++ c :: l₂) source) c = none ∧
      fetch_data (l₁ ++ c :: l₂) source = fetch_data (l₁ ++ l₂) source ∧
      ((pairsOf (l₁ ++ c :: l₂) (pipeline_ratio_tables (l₁ ++ c :: l₂) source)).map
          Prod.fst
        = (l₁ ++ c :: l₂).filter
            (fun x => (lookupA (pipeline_ratio_tables (l₁ ++ c :: l₂) source) x).isSome)) ∧
      c ∉ (pairsOf (l₁ ++ c :: l₂) (pipeline_ratio_tables (l₁ ++ c :: l₂) source)).map
          Prod.fst ∧
      plot_current_ratio_comparison (l₁ ++ c :: l₂)
          (pipeline_ratio_tables (l₁ ++ c :: l₂) source)
        = plot_current_ratio_comparison (l₁ ++ l₂)
            (pipeline_ratio_tables (l₁ ++ c :: l₂) source) ∧
      plot_debt_ratio_radar (l₁ ++ c :: l₂)
          (pipeline_ratio_tables (l₁ ++ c :: l₂) source)
        = plot_debt_ratio_radar (l₁ ++ l₂)
            (pipeline_ratio_tables (l₁ ++ c :: l₂) source) ∧
      generate_analysis_report now (l₁ ++ c :: l₂)
          (pipeline_ratio_tables (l₁ ++ c :: l₂) source)
        = generate_analysis_report now (l₁ ++ l₂)
            (pipeline_ratio_tables (l₁ ++ c :: l₂) source) ∧
      plot_balance_sheet_composition (fetch_data (l₁ ++ c :: l₂) source) c
        = .ok .noData := by
  have h1 : lookupA (fetch_data (l₁ ++ c :: l₂) source) c = none := by
    refine lookupA_eq_none (fun v hv => ?_)
    obtain ⟨-, hl, hne⟩ := mem_fetch hv
    have hveq : some bsE = some v := Option.some.inj (hsrc.symm.trans hl)
    rw [← Option.some.inj hveq] at hne
    rw [hempty] at hne
    cases hne
  have h2 : lookupA (pipeline_ratio_tables (l₁ ++ c :: l₂) source) c = none := by
    refine lookupA_eq_none (fun rt hrt => ?_)
    obtain ⟨bs, hbs, -⟩ := mem_calc hrt
    obtain ⟨-, hl, hne⟩ := mem_fetch hbs
    have hveq : some bsE = some bs := Option.some.inj (hsrc.symm.trans hl)
    rw [← Option.some.inj hveq] at hne
    rw [hempty] at hne
    cases hne
  have h3 : fetch_data (l₁ ++ c :: l₂) source = fetch_data (l₁ ++ l₂) source := by
    unfold fetch_data
    rw [List.filterMap_append, List.filterMap_append, List.filterMap_cons]
    rw [hsrc]
    simp [hempty]
  have hp : pairsOf (l₁ ++ c :: l₂) (pipeline_ratio_tables (l₁ ++ c :: l₂) source)
      = pairsOf (l₁ ++ l₂) (pipeline_ratio_tables (l₁ ++ c :: l₂) source) := by
    rw [pairsOf_append, pairsOf_append, pairsOf_cons_none _ h2]
  refine ⟨h1, h2, h3, pairsOf_map_fst _ _, not_mem_pairsOf_keys _ h2, ?_, ?_, ?_, ?_⟩
  · unfold plot_current_ratio_comparison
    rw [hp]
  · unfold plot_debt_ratio_radar
    rw [hp]
  · unfold generate_analysis_report
    rw [hp]
  · rw [plot_balance_sheet_composition, h1]

/-- An empty source table (no periods, no line items). -/
def bsEmptyEx : BalanceSheet := ⟨[], []⟩

/-- A two-company source in which `E` resolves to an empty table. -/
def wSource : List (String × Option BalanceSheet) :=
  [("A", some bsFull), ("E", some bsEmptyEx)]

/-- C7, instantiated on the input list `["A", "E"]`. -/
theorem C7_witness :
    lookupA (fetch_data (["A"] ++ "E" :: []) wSource) "E" = none ∧
      lookupA (pipeline_ratio_tables (["A"] ++ "E" :: []) wSource) "E" = none ∧
      fetch_data (["A"] ++ "E" :: []) wSource = fetch_data (["A"] ++ []) wSource ∧
      ((pairsOf (["A"] ++ "E" :: []) (pipeline_ratio_tables (["A"] ++ "E" :: []) wSource)).map
          Prod.fst
        = (["A"] ++ "E" :: []).filter
            (fun x => (lookupA (pipeline_ratio_tables (["A"] ++ "E" :: []) wSource) x).isSome)) ∧
      "E" ∉ (pairsOf (["A"] ++ "E" :: [])
          (pipeline_ratio_tables (["A"] ++ "E" :: []) wSource)).map Prod.fst ∧
      plot_current_ratio_comparison (["A"] ++ "E" :: [])
          (pipeline_ratio_tables (["A"] ++ "E" :: []) wSource)
        = plot_current_ratio_comparison (["A"] ++ [])
            (pipeline_ratio_tables (["A"] ++ "E" :: []) wSource) ∧
      plot_debt_ratio_radar (["A"] ++ "E" :: [])
          (pipeline_ratio_tables (["A"] ++ "E" :: []) wSource)
        = plot_debt_ratio_radar (["A"] ++ [])
            (pipeline_ratio_tables (["A"] ++ "E" :: []) wSource) ∧
      generate_analysis_report "T" (["A"] ++ "E" :: [])
          (pipeline_ratio_tables (["A"] ++ "E" :: []) wSource)
        = generate_analysis_report "T" (["A"] ++ [])
            (pipeline_ratio_tables (["A"] ++ "E" :: []) wSource) ∧
      plot_balance_sheet_composition (fetch_data (["A"] ++ "E" :: []) wSource) "E"
        = .ok .noData :=
  C7_empty_company_isolated ["A"] [] "E" wSource "T" bsEmptyEx
    (by with_unfolding_all decide) (by with_unfolding_all decide)

/-- The guarded block, when it succeeds, always yields a rendered chart. -/
theorem composition_values_some {bs : BalanceSheet} {r : CompResult}
    (h : composition_values bs = some r) :
    r ≠ .noData ∧ r ≠ .renderError := by
  cases h1 : valueAtLatest bs "Total Assets" with
  | none => rw [composition_values, h1] at h; cases h
  | some v1 =>
  cases h2 : valueAtLatest bs "Current Assets" with
  | none => simp [composition_values, h1, h2] at h
  | some v2 =>
  cases h3 : valueAtLatest bs "Total Non Current Assets" with
  | none => simp [composition_values, h1, h2, h3] at h
  | some v3 =>
  cases h4 : valueAtLatest bs "Total Liabilities Net Minority Interest" with
  | none => simp [composition_values, h1, h2, h3, h4] at h
  | some v4 =>
  cases h5 : valueAtLatest bs "Current Liabilities" with
  | none => simp [composition_values, h1, h2, h3, h4, h5] at h
  | some v5 =>
  cases h6 : valueAtLatest bs "Total Non Current Liabilities Net Minority Interest" with
  | none => simp [composition_values, h1, h2, h3, h4, h5, h6] at h
  | some v6 =>
  cases h7 : valueAtLatest bs "Stockholders Equity" with
  | none => simp [composition_values, h1, h2, h3, h4, h5, h6, h7] at h
  | some v7 =>
    simp [composition_values, h1, h2, h3, h4, h5, h6, h7] at h
    cases h
    constructor
    · intro hx
      cases hx
    · intro hx
      cases hx

/-- The composition chart answers "No data available" exactly for the
companies without a fetched balance sheet. -/
theorem comp_noData_iff (bsheets : List (String × BalanceSheet)) (c : String) :
    plot_balance_sheet_composition bsheets c = .ok .noData ↔
      lookupA bsheets c = none := by
  cases hl : lookupA bsheets c with
  | none => simp [plot_balance_sheet_composition, hl]
  | some bs =>
    simp only [plot_balance_sheet_composition, hl]
    constructor
    · intro hcomp
      cases hh : bs.columns.head? with
      | none => rw [hh] at hcomp; cases hcomp
      | some d =>
        rw [hh] at hcomp
        cases hdo : composition_values bs with
        | none =>
          rw [hdo] at hcomp
          have hre : CompResult.renderError = CompResult.noData := Except.ok.inj hcomp
          cases hre
        | some r =>
          rw [hdo] at hcomp
          exact absurd (Except.ok.inj hcomp) (composition_values_some hdo).1
    · intro hnone
      cases hnone

/-- The line chart's companies are exactly the selected pairs' keys. -/
theorem line_chart_keys (companies : List String) (ratios : List (String × RatioTable)) :
    (plot_current_ratio_comparison companies ratios).map Prod.fst
      = (pairsOf companies ratios).map Prod.fst := by
  simp [plot_current_ratio_comparison, List.map_map, Function.comp]

/-- C10: whether a company's composition chart is attempted depends only
on its membership in the fetched balance sheets ("no data" iff no fetched
sheet), not on the ratio tables — a company whose ratio computation was
skipped but whose sheet was fetched still has its composition chart
attempted, while it is absent from the line chart, the radar selection,
and the report's ratio entries. -/
theorem C10_composition_independent_of_ratios (companies : List String)
    (source : List (String × Option BalanceSheet)) (c : String) :
    (plot_balance_sheet_composition (fetch_data companies source) c = .ok .noData ↔
        lookupA (fetch_data companies source) c = none) ∧
      (∀ bs : BalanceSheet, lookupA (fetch_data companies source) c = some bs →
        calculate_ratios_one bs = none →
        lookupA (pipeline_ratio_tables companies source) c = none ∧
          c ∉ (plot_current_ratio_comparison companies
              (pipeline_ratio_tables companies source)).map Prod.fst ∧
          c ∉ (pairsOf companies
              (pipeline_ratio_tables companies source)).map Prod.fst ∧
          plot_balance_sheet_composition (fetch_data companies source) c
            ≠ .ok .noData) := by
  refine ⟨comp_noData_iff _ c, ?_⟩
  intro bs hl hnone
  have hsrc : lookupA source c = some (some bs) :=
    (mem_fetch (lookupA_some_mem hl)).2.1
  have hkey : lookupA (pipeline_ratio_tables companies source) c = none := by
    refine lookupA_eq_none (fun rt hrt => ?_)
    obtain ⟨bs₂, hbs₂, hcalc⟩ := mem_calc hrt
    obtain ⟨-, hsrc₂, -⟩ := mem_fetch hbs₂
    have : bs₂ = bs :=
      Option.some.inj (Option.some.inj (hsrc₂.symm.trans hsrc))
    rw [this, hnone] at hcalc
    cases hcalc
  refine ⟨hkey, ?_, not_mem_pairsOf_keys _ hkey, ?_⟩
  · rw [line_chart_keys]
    exact not_mem_pairsOf_keys _ hkey
  · intro hcomp
    rw [comp_noData_iff] at hcomp
    rw [hl] at hcomp
    cases hcomp

/-- A one-period balance sheet that can be fetched and composition-charted
in part, but whose ratio computation fails: the
`Total Liabilities Net Minority Interest` line item is missing. -/
def bsMissing : BalanceSheet :=
  ⟨[1],
   [("Current Assets", [4]),
    ("Current Liabilities", [2]),
    ("Total Assets", [10]),
    ("Stockholders Equity", [5])]⟩

/-- The source for the C10 instantiation: company M's sheet is fetched but
lacks a required ratio line item. -/
def mSource : List (String × Option BalanceSheet) :=
  [("A", some bsFull), ("M", some bsMissing)]

/-- C10, instantiated on `["A", "M"]` at company M. -/
theorem C10_witness :
    lookupA (pipeline_ratio_tables ["A", "M"] mSource) "M" = none ∧
      "M" ∉ (plot_current_ratio_comparison ["A", "M"]
          (pipeline_ratio_tables ["A", "M"] mSource)).map Prod.fst ∧
      "M" ∉ (pairsOf ["A", "M"] (pipeline_ratio_tables ["A", "M"] mSource)).map
          Prod.fst ∧
      plot_balance_sheet_composition (fetch_data ["A", "M"] mSource) "M"
        ≠ .ok .noData :=
  (C10_composition_independent_of_ratios ["A", "M"] mSource "M").2 bsMissing
    (by with_unfolding_all decide) (by with_unfolding_all decide)

/-- Rectangularity of every table a source can return. -/
def SourceWfb (source : List (String × Option BalanceSheet)) : Bool :=
  source.all (fun p =>
    match p.2 with
    | some bs => bs.wfb
    | none => true)

/-- In a rectangular sheet every row is as long as the column list. -/
theorem wfb_loc_length {bs : BalanceSheet} {item : String} {row : List ℚ}
    (hwf : bs.wfb = true) (h : bs.loc item = some row) :
    row.length = bs.columns.length := by
  have hm : (item, row) ∈ bs.rows := lookupA_some_mem h
  have hb := List.all_eq_true.mp hwf _ hm
  simp only [beq_iff_eq] at hb
  exact hb

/-- A sheet fetched from a rectangular source is rectangular. -/
theorem fetch_wfb {companies : List String}
    {source : List (String × Option BalanceSheet)} {p : String × BalanceSheet}
    (hwf : SourceWfb source = true) (h : p ∈ fetch_data companies source) :
    p.2.wfb = true := by
  obtain ⟨-, hl, -⟩ := mem_fetch h
  have hm : (p.1, some p.2) ∈ source := lookupA_some_mem hl
  exact List.all_eq_true.mp hwf _ hm

/-- On a rectangular non-empty sheet, a successful ratio computation
produces a table whose index and four columns all have the positive length
of the column list. -/
theorem calc_one_lengths {bs : BalanceSheet} {rt : RatioTable}
    (hwf : bs.wfb = true) (h : calculate_ratios_one bs = some rt) :
    rt.index = bs.columns ∧
      rt.current_Ratio.length = bs.columns.length ∧
      rt.quick_Ratio.length = bs.columns.length ∧
      rt.debt_to_Assets.length = bs.columns.length ∧
      rt.equity_Multiplier.length = bs.columns.length := by
  obtain ⟨ca, cl, ta, tl, se, hca, hcl, hta, htl, hse, hrt⟩ := calc_one_some h
  subst hrt
  have lca := wfb_loc_length hwf hca
  have lcl := wfb_loc_length hwf hcl
  have lta := wfb_loc_length hwf hta
  have ltl := wfb_loc_length hwf htl
  have lse := wfb_loc_length hwf hse
  refine ⟨rfl, ?_, ?_, ?_, ?_⟩
  · simp [List.length_zipWith, lca, lcl]
  · cases hinv : bs.loc "Inventory" with
    | none => simp [hinv, List.length_zipWith, lca, lcl]
    | some inv =>
      have linv := wfb_loc_length hwf hinv
      simp [hinv, List.length_zipWith, lca, lcl, linv]
  · simp [List.length_zipWith, ltl, lta]
  · simp [List.length_zipWith, lta, lse]

/-- A company section is generated without failure for every table whose
index and columns are non-empty (as produced from any fetched sheet). -/
theorem companySection_ok {rt : RatioTable} (c : String)
    (h1 : rt.index ≠ []) (h2 : rt.current_Ratio ≠ []) (h3 : rt.quick_Ratio ≠ [])
    (h4 : rt.debt_to_Assets ≠ []) (h5 : rt.equity_Multiplier ≠ []) :
    ∃ lines, companySection c rt = .ok lines := by
  obtain ⟨d, t1, e1⟩ := List.exists_cons_of_ne_nil h1
  obtain ⟨cr, t2, e2⟩ := List.exists_cons_of_ne_nil h2
  obtain ⟨qr, t3, e3⟩ := List.exists_cons_of_ne_nil h3
  obtain ⟨da, t4, e4⟩ := List.exists_cons_of_ne_nil h4
  obtain ⟨em, t5, e5⟩ := List.exists_cons_of_ne_nil h5
  refine ⟨sectionHead c rt d cr qr da em ++ sectionRecs cr da ++ sectionTail, ?_⟩
  rw [companySection, e1, e2, e3, e4, e5]
  simp only [List.head?_cons]

/-- Concatenating sections succeeds when each section does. -/
theorem sectionsOf_ok {ps : List (String × RatioTable)}
    (h : ∀ p ∈ ps, ∃ lines, companySection p.1 p.2 = .ok lines) :
    ∃ out, sectionsOf ps = .ok out := by
  induction ps with
  | nil => exact ⟨[], rfl⟩
  | cons p rest ih =>
    obtain ⟨lines, hl⟩ := h p (List.mem_cons_self _ _)
    obtain ⟨out, hout⟩ := ih (fun q hq => h q (List.mem_cons_of_mem _ hq))
    refine ⟨lines ++ out, ?_⟩
    rw [sectionsOf, hl, hout]
    rfl

/-- The composition loop never aborts over sheets that all have at least
one reporting period (the only uncaught failure is `columns[0]` on an
empty column list). -/
theorem compositionsAll_ok {bsheets : List (String × BalanceSheet)}
    (hne : ∀ p ∈ bsheets, p.2.isEmpty = false) :
    ∀ cs : List String, ∃ out, compositionsAll bsheets cs = .ok out := by
  intro cs
  induction cs with
  | nil => exact ⟨[], rfl⟩
  | cons c rest ih =>
    obtain ⟨out, hout⟩ := ih
    have hc : ∃ r, plot_balance_sheet_composition bsheets c = .ok r := by
      cases hl : lookupA bsheets c with
      | none => exact ⟨.noData, by rw [plot_balance_sheet_composition, hl]⟩
      | some bs =>
        have hbs : bs.isEmpty = false := hne (c, bs) (lookupA_some_mem hl)
        have hcols : bs.columns ≠ [] := by
          intro hnil
          rw [BalanceSheet.isEmpty, hnil] at hbs
          simp at hbs
        obtain ⟨d, t, hd⟩ := List.exists_cons_of_ne_nil hcols
        cases hcv : composition_values bs with
        | none =>
          refine ⟨.renderError, ?_⟩
          rw [plot_balance_sheet_composition, hl]
          dsimp only
          rw [hd]
          simp only [List.head?_cons]
          rw [hcv]
        | some r =>
          refine ⟨r, ?_⟩
          rw [plot_balance_sheet_composition, hl]
          dsimp only
          rw [hd]
          simp only [List.head?_cons]
          rw [hcv]
    obtain ⟨r, hr⟩ := hc
    exact ⟨(c, r) :: out, by rw [compositionsAll, hr, hout]⟩

/-- The run always records the radar outcome it computed. -/
theorem runMain_radar (companies : List String)
    (source : List (String × Option BalanceSheet)) (now : String) :
    (runMain companies source now).radar
      = some (plot_debt_ratio_radar companies
          (calculate_financial_ratios (fetch_data companies source))) := by
  unfold runMain
  dsimp only
  cases plot_debt_ratio_radar companies
      (calculate_financial_ratios (fetch_data companies source)) with
  | err m => rfl
  | noData =>
    cases compositionsAll (fetch_data companies source) companies with
    | error m => rfl
    | ok comps =>
      cases generate_analysis_report now companies
          (calculate_financial_ratios (fetch_data companies source)) with
      | error m => rfl
      | ok rep => rfl
  | chart d data =>
    cases compositionsAll (fetch_data companies source) companies with
    | error m => rfl
    | ok comps =>
      cases generate_analysis_report now companies
          (calculate_financial_ratios (fetch_data companies source)) with
      | error m => rfl
      | ok rep => rfl

/-- C9 as amended: a failure inside one company's composition chart is
caught there (the loop and the report still run — over any rectangular
source, the composition loop and the report generation always succeed once
the radar stage has not raised), but a failure raised while rendering the
radar chart is NOT caught below the top-level handler: it aborts the run,
and neither the composition charts nor the report are produced. -/
theorem C9_amended_uncaught_radar_failure (companies : List String)
    (source : List (String × Option BalanceSheet)) (now : String)
    (hwf : SourceWfb source = true) :
    (∀ m : String, (runMain companies source now).radar = some (.err m) →
        (runMain companies source now).compositions = none ∧
          (runMain companies source now).report = none) ∧
      (∀ r : RadarResult, (runMain companies source now).radar = some r →
        r.isErr = false →
        (runMain companies source now).compositions.isSome = true ∧
          (runMain companies source now).report.isSome = true) := by
  have hne : ∀ p ∈ fetch_data companies source, p.2.isEmpty = false :=
    fun p hp => (mem_fetch hp).2.2
  have hradar := runMain_radar companies source now
  obtain ⟨comps, hcomps⟩ := compositionsAll_ok hne companies
  have hsec : ∀ p ∈ pairsOf companies
      (calculate_financial_ratios (fetch_data companies source)),
      ∃ lines, companySection p.1 p.2 = .ok lines := by
    intro p hp
    obtain ⟨-, hlk⟩ := mem_pairsOf hp
    obtain ⟨bs, hbs, hcalc⟩ := mem_calc (lookupA_some_mem hlk)
    have hwfb : bs.wfb = true := fetch_wfb hwf hbs
    have hem : bs.isEmpty = false := hne _ hbs
    have hcols : bs.columns ≠ [] := by
      intro hnil
      rw [BalanceSheet.isEmpty, hnil] at hem
      simp at hem
    have hpos : 0 < bs.columns.length := List.length_pos.mpr hcols
    obtain ⟨hidx, l1, l2, l3, l4⟩ := calc_one_lengths hwfb hcalc
    refine companySection_ok p.1 ?_ ?_ ?_ ?_ ?_
    · rw [hidx]; exact hcols
    · exact List.ne_nil_of_length_pos (l1 ▸ hpos)
    · exact List.ne_nil_of_length_pos (l2 ▸ hpos)
    · exact List.ne_nil_of_length_pos (l3 ▸ hpos)
    · exact List.ne_nil_of_length_pos (l4 ▸ hpos)
  obtain ⟨secs, hsecs⟩ := sectionsOf_ok hsec
  have hrep : generate_analysis_report now companies
      (calculate_financial_ratios (fetch_data companies source))
      = .ok (["Financial Analysis Report", ruleEq, "",
          "Report Generated: " ++ now, ""] ++ secs) := by
    rw [generate_analysis_report, hsecs]
    rfl
  cases hr : plot_debt_ratio_radar companies
      (calculate_financial_ratios (fetch_data companies source)) with
  | err m =>
    constructor
    · intro m2 hm2
      constructor <;>
        · unfold runMain
          dsimp only
          rw [hr]
    · intro r hrr hisErr
      rw [hr] at hradar
      rw [hradar] at hrr
      rw [← Option.some.inj hrr] at hisErr
      cases hisErr
  | noData =>
    constructor
    · intro m2 hm2
      rw [hr] at hradar
      rw [hradar] at hm2
      cases Option.some.inj hm2
    · intro r hrr hisErr
      constructor <;>
        · unfold runMain
          dsimp only
          rw [hr, hcomps, hrep]
          rfl
  | chart d data =>
    constructor
    · intro m2 hm2
      rw [hr] at hradar
      rw [hradar] at hm2
      cases Option.some.inj hm2
    · intro r hrr hisErr
      constructor <;>
        · unfold runMain
          dsimp only
          rw [hr, hcomps, hrep]
          rfl

/-- A one-period balance sheet with all five required ratio line items. -/
def bsOne : BalanceSheet :=
  ⟨[1],
   [("Current Assets", [6]),
    ("Current Liabilities", [3]),
    ("Total Assets", [12]),
    ("Total Liabilities Net Minority Interest", [10]),
    ("Stockholders Equity", [2])]⟩

/-- A source whose two companies both yield ratio tables, but with period
sets `[2, 1]` and `[1]` — radar construction raises on the second. -/
def exSource : List (String × Option BalanceSheet) :=
  [("A", some bsFull), ("B", some bsOne)]

/-- C9 is FALSE on the code: the `KeyError` raised while rendering the
radar chart is not caught by any per-chart handler — it reaches the
top-level handler, so the composition charts are never attempted and the
report is never generated. -/
theorem C9_counterexample :
    (runMain ["A", "B"] exSource "T").radar = some (.err "KeyError") ∧
      (runMain ["A", "B"] exSource "T").compositions = none ∧
      (runMain ["A", "B"] exSource "T").report = none ∧
      (runMain ["A", "B"] exSource "T").errMsg = some "KeyError" := by
  with_unfolding_all decide

/-- C9 amended, instantiated: with company M's composition chart failing
(missing pie line items) but the radar stage succeeding, the run still
produces the composition results and the report. -/
theorem C9_witness :
    (runMain ["A", "M"] mSource "T").compositions.isSome = true ∧
      (runMain ["A", "M"] mSource "T").report.isSome = true :=
  (C9_amended_uncaught_radar_failure ["A", "M"] mSource "T"
      (by with_unfolding_all decide)).2
    (.chart 2 [("A", (.fin (1 / 2), .fin 2, .fin (3 / 2), .fin 2))])
    (by with_unfolding_all rfl) (by rfl)
